import Mathlib

/-
  Verification development for the JNI bridge in src/randvar/c/RandUnuran.c.

  The file embeds the parameter-block protocol of that C file:
  - struct GenParams with its three generation functions (unif, cons, arr)
    dispatched through the function pointer GenParams.unif, modelled as the
    tag UnifFn;
  - the per-object NativeParams data, split into two facets: a sampling
    facet (NPSample plus a heap of GenParams blocks, so that the pointer
    aliasing performed by the batch entry points is represented faithfully)
    and a lifecycle facet (NP with allocation flags plus a live-resource
    counter, for init and close);
  - the entry points getRandDisc, getRandVec, getRandDiscArray,
    getRandContArray, init and close.

  The native engine (UNURAN) is external to the repository; it is modelled
  through the interface it presents: during a sampling call it performs a
  sequence of uniform pulls on the primary or the auxiliary generator slot
  (the List Slot argument of the entry points), and unur_free on a null
  pointer is a no-op.  JNIEnv bookkeeping (the env field) carries no
  observable state and is omitted.  Uniform values are abstract; they are
  modelled as integers since the bridge only moves them around.
-/

namespace RandUnuran

abbrev UVal := Int

/-- A managed RandomStream object: a fixed output sequence together with
the position of the next value it will produce. -/
structure RandomStream where
  seq : Nat → UVal
  pos : Nat

/-- RandomStream.nextDouble, reached through midNextDouble. -/
def nextDouble (rs : RandomStream) : UVal × RandomStream :=
  (rs.seq rs.pos, { rs with pos := rs.pos + 1 })

/-- RandomStream.nextArrayOfDouble (buffer, 0, n), reached through
midNextArrayOfDouble: the first n slots of the buffer are replaced by
the next n values of the stream. -/
def nextArrayOfDouble (rs : RandomStream) (n : Nat) : List UVal × RandomStream :=
  ((List.range n).map (fun i => rs.seq (rs.pos + i)), { rs with pos := rs.pos + n })

/-- The three generation functions that the C code installs in the
function pointer GenParams.unif: unif (direct call-through), cons
(cached single value) and arr (array-backed streaming). -/
inductive UnifFn where
  | unif
  | cons
  | arr
deriving DecidableEq, Repr

/-- Which managed stream a parameter block draws from (the rsObj field,
a global reference to mainStream or auxStream). -/
inductive StreamId where
  | main
  | aux
deriving DecidableEq, Repr

/-- Observable callbacks into managed code issued by a parameter block. -/
inductive JEvent where
  | nextDouble
  | fillBuffer (offset count : Nat)
deriving DecidableEq, Repr

/-- struct GenParams: the parameter block attached to one uniform
generator.  junifArray and unifArray of the C code coincide here, since
GetDoubleArrayElements yields the array contents.  The env field carries
no observable state and is omitted. -/
structure GenParams where
  rsObj : StreamId := StreamId.main
  u : UVal := 0
  unifArray : List UVal := []
  n : Nat := 0
  nextIndex : Nat := 0
  unif : UnifFn := UnifFn.unif
deriving DecidableEq, Repr

/-- Result of one call through unif_wrapper: the produced uniform, the
updated parameter block, the updated managed stream, and the managed
callbacks that were issued. -/
structure PullResult where
  val : UVal
  gp : GenParams
  rs : RandomStream
  events : List JEvent

/-- unif_wrapper: dispatch on the current generation function.
unif calls RandomStream.nextDouble; cons switches the function pointer
back to unif and returns the cached u; arr refills the array through
nextArrayOfDouble when nextIndex has reached n (resetting nextIndex
to 0) and returns unifArray[nextIndex++]. -/
def pull (gp : GenParams) (rs : RandomStream) : PullResult :=
  match gp.unif with
  | UnifFn.unif =>
      let (v, rs) := nextDouble rs
      ⟨v, gp, rs, [JEvent.nextDouble]⟩
  | UnifFn.cons =>
      ⟨gp.u, { gp with unif := UnifFn.unif }, rs, []⟩
  | UnifFn.arr =>
      if gp.n ≤ gp.nextIndex then
        let (buf, rs) := nextArrayOfDouble rs gp.n
        -- nextIndex is reset to 0 by the refill and advanced to 1 by the read
        ⟨buf.getD 0 0, { gp with unifArray := buf, nextIndex := 1 }, rs,
         [JEvent.fillBuffer 0 gp.n]⟩
      else
        ⟨gp.unifArray.getD gp.nextIndex 0,
         { gp with nextIndex := gp.nextIndex + 1 }, rs, []⟩

/-- Result of several consecutive pulls on the same parameter block. -/
structure PullsResult where
  vals : List UVal
  gp : GenParams
  rs : RandomStream
  events : List JEvent

/-- k consecutive pulls on one parameter block. -/
def pulls : GenParams → RandomStream → Nat → PullsResult
  | gp, rs, 0 => ⟨[], gp, rs, []⟩
  | gp, rs, k + 1 =>
      let r := pull gp rs
      let rest := pulls r.gp r.rs k
      ⟨r.val :: rest.vals, rest.gp, rest.rs, r.events ++ rest.events⟩

/-- The cached-value setup performed by the single-value entry points
(getRandDisc lines 494-495 and the analogous lines of getRandCont and
getRandVec): store the prefetched uniform in u and install cons. -/
def setCachedValue (gp : GenParams) (v : UVal) : GenParams :=
  { gp with u := v, unif := UnifFn.cons }

/-- The array-stream setup performed by the batch entry points on the
primary block (getRandDiscArray lines 582-585): install the buffer,
set n and nextIndex to the batch size (scheduling an immediate refill)
and install arr. -/
def setArrayMode (gp : GenParams) (buf : List UVal) (n : Nat) : GenParams :=
  { gp with unifArray := buf, n := n, nextIndex := n, unif := UnifFn.arr }

/-
  Sampling facet of struct NativeParams.  The batch entry points alias
  the urng_aux.params pointer to urng.params, so the parameter blocks
  live in an address-indexed heap and NPSample stores their addresses.
-/

/-- The mutable world visible to a sampling call: the parameter-block
heap, the two managed streams, and a log of the managed callbacks that
have been issued (tagged with the stream that received them). -/
structure World where
  heap : Nat → GenParams
  mainStream : RandomStream
  auxStream : RandomStream
  log : List (StreamId × JEvent)

/-- The stream a given rsObj reference designates. -/
def World.stream (w : World) : StreamId → RandomStream
  | StreamId.main => w.mainStream
  | StreamId.aux => w.auxStream

/-- Write back an updated stream. -/
def World.putStream (w : World) : StreamId → RandomStream → World
  | StreamId.main, rs => { w with mainStream := rs }
  | StreamId.aux, rs => { w with auxStream := rs }

/-- Update the parameter block stored at address a. -/
def updateHeap (w : World) (a : Nat) (f : GenParams → GenParams) : World :=
  { w with heap := Function.update w.heap a (f (w.heap a)) }

/-- One uniform requested by the engine through the parameter block at
address a: unif_wrapper runs on that block against the stream its rsObj
designates, and the callbacks it issues are appended to the log. -/
def pullAt (w : World) (a : Nat) : UVal × World :=
  let gp := w.heap a
  let r := pull gp (w.stream gp.rsObj)
  (r.val,
   { w.putStream gp.rsObj r.rs with
       heap := Function.update w.heap a r.gp,
       log := w.log ++ r.events.map (fun e => (gp.rsObj, e)) })

/-- Sampling facet of struct NativeParams: the addresses of the two
parameter blocks (urng.params and urng_aux.params) and the distribution
dimension. -/
structure NPSample where
  urngParams : Nat
  urngAuxParams : Nat
  dim : Nat
deriving DecidableEq, Repr

/-- The two uniform-generator slots of the engine. -/
inductive Slot where
  | primary
  | auxiliary
deriving DecidableEq, Repr

/-- The parameter-block address currently bound to a slot. -/
def slotAddr (np : NPSample) : Slot → Nat
  | Slot.primary => np.urngParams
  | Slot.auxiliary => np.urngAuxParams

/-- The uniform pulls performed by the abstract engine during a sampling
call: each element of the schedule is one pull on the named slot.  The
variates the engine returns are abstract and not modelled. -/
def enginePulls (np : NPSample) : World → List Slot → World
  | w, [] => w
  | w, s :: rest => enginePulls np (pullAt w (slotAddr np s)).2 rest

/-- Entry point getRandDisc (lines 481-502): install the prefetched
uniform and cons on the primary block, install unif on the auxiliary
block, then let the engine sample once (its pulls abstracted by sched).
getRandCont and the mode setup of getRandVec are line for line the
same and are not duplicated here. -/
def getRandDisc (np : NPSample) (u : UVal) (w : World) (sched : List Slot) : World :=
  let w := updateHeap w np.urngParams (fun gp => setCachedValue gp u)
  let w := updateHeap w np.urngAuxParams (fun gp => { gp with unif := UnifFn.unif })
  enginePulls np w sched

/-- Entry point getRandVec (lines 528-564): cached-value setup on the
primary block, call-through on the auxiliary block, then the length
check; only when it passes are the output elements acquired and
unur_sample_vec invoked (abstracted by sampleVec).  The result records
the world, the thrown exception if any, whether the native sampling
call was made, and the final contents of the output buffer. -/
def getRandVec (np : NPSample) (u : UVal) (w : World) (jvec : List UVal)
    (sampleVec : World → List UVal → World × List UVal) :
    World × Option String × Bool × List UVal :=
  let w := updateHeap w np.urngParams (fun gp => setCachedValue gp u)
  let w := updateHeap w np.urngAuxParams (fun gp => { gp with unif := UnifFn.unif })
  if jvec.length < np.dim then
    (w, some "array too short", false, jvec)
  else
    let (w, vec) := sampleVec w jvec
    (w, none, true, vec)

/-- Entry point getRandDiscArray (lines 566-614).  Primary block: full
array-stream setup over ju with nextIndex = n, scheduling a refill.
Auxiliary block: when juaux is present the source installs its buffer
fields but then writes np->urng.params->unif = arr, i.e. it sets the
PRIMARY function pointer a second time and leaves the auxiliary one
unchanged (lines 588-594, embedded faithfully); when juaux is absent
the urng_aux.params pointer is aliased to urng.params.  The engine then
draws the n variates (pull schedule abstracted by sched; the output
array jv is abstract and not modelled), and the auxiliary params pointer
captured before the alias is written back. -/
def getRandDiscArray (np : NPSample) (w : World) (ju : List UVal)
    (juaux : Option (List UVal)) (n : Nat) (sched : List Slot) :
    NPSample × World :=
  let w := updateHeap w np.urngParams (fun gp => setArrayMode gp ju n)
  let gpA := np.urngAuxParams
  let (np2, w2) :=
    match juaux with
    | some buf =>
        let w := updateHeap w gpA (fun gp =>
          { gp with unifArray := buf, n := n, nextIndex := n })
        let w := updateHeap w np.urngParams (fun gp => { gp with unif := UnifFn.arr })
        (np, w)
    | none => ({ np with urngAuxParams := np.urngParams }, w)
  let w3 := enginePulls np2 w2 sched
  let np3 :=
    match juaux with
    | some _ => np2
    | none => { np2 with urngAuxParams := gpA }
  (np3, w3)

/-- Entry point getRandContArray (lines 616-661): except for the variate
type of the output array (abstract here), its body is line for line that
of getRandDiscArray, including the misdirected function-pointer write
in the juaux branch and the capture and restoration of the auxiliary
params pointer. -/
def getRandContArray (np : NPSample) (w : World) (ju : List UVal)
    (juaux : Option (List UVal)) (n : Nat) (sched : List Slot) :
    NPSample × World :=
  let w := updateHeap w np.urngParams (fun gp => setArrayMode gp ju n)
  let gpA := np.urngAuxParams
  let (np2, w2) :=
    match juaux with
    | some buf =>
        let w := updateHeap w gpA (fun gp =>
          { gp with unifArray := buf, n := n, nextIndex := n })
        let w := updateHeap w np.urngParams (fun gp => { gp with unif := UnifFn.arr })
        (np, w)
    | none => ({ np with urngAuxParams := np.urngParams }, w)
  let w3 := enginePulls np2 w2 sched
  let np3 :=
    match juaux with
    | some _ => np2
    | none => { np2 with urngAuxParams := gpA }
  (np3, w3)

/-
  Lifecycle facet: struct UrngWithParams and struct NativeParams as
  allocation state, for init and close.  A field is true when the
  corresponding native pointer is non-null.  Live counts the native
  resources currently allocated, so that teardown claims are about
  actual release and not only about nulled fields.
-/

/-- struct UrngWithParams as allocation state: whether the UNUR_URNG
and the GenParams block are allocated (non-null). -/
structure UrngWithParams where
  urng : Bool
  params : Bool
deriving DecidableEq, Repr

/-- Counts of currently allocated native resources: NativeParams
blocks, UNURAN generators, GenParams blocks, UNUR_URNG objects, and
JNI global references. -/
structure Live where
  nps : Nat
  engines : Nat
  params : Nat
  urngs : Nat
  grefs : Nat
deriving DecidableEq, Repr

/-- No native resource allocated. -/
def Live.zero : Live := ⟨0, 0, 0, 0, 0⟩

/-- urng_jni_destroy (lines 213-226), after the null-pointer guard:
free the params block if present, then the UNUR_URNG if present, and
null both fields. -/
def urng_jni_destroy (gen : UrngWithParams) (lv : Live) : UrngWithParams × Live :=
  let (gen, lv) :=
    if gen.params then ({ gen with params := false }, { lv with params := lv.params - 1 })
    else (gen, lv)
  let (gen, lv) :=
    if gen.urng then ({ gen with urng := false }, { lv with urngs := lv.urngs - 1 })
    else (gen, lv)
  (gen, lv)

/-- The null-pointer guard of urng_jni_destroy: on a null pointer the
function returns at once. -/
def urng_jni_destroy_p : Option UrngWithParams × Live → Option UrngWithParams × Live
  | (none, lv) => (none, lv)
  | (some gen, lv) =>
      let (gen, lv) := urng_jni_destroy gen lv
      (some gen, lv)

/-- urng_jni_create (lines 228-242): allocate the params block (calling
urng_jni_destroy on failure), then unur_urng_new (again destroying on
failure).  mallocOk and urngNewOk are the outcomes of the two
allocations.  The store of unif into the fresh params block is part of
the sampling facet. -/
def urng_jni_create (gen : UrngWithParams) (mallocOk urngNewOk : Bool) (lv : Live) :
    UrngWithParams × Live :=
  let (gen, lv) :=
    if mallocOk then ({ gen with params := true }, { lv with params := lv.params + 1 })
    else ({ gen with params := false }, lv)
  if !gen.params then urng_jni_destroy gen lv
  else
    let (gen, lv) :=
      if urngNewOk then ({ gen with urng := true }, { lv with urngs := lv.urngs + 1 })
      else ({ gen with urng := false }, lv)
    if !gen.urng then urng_jni_destroy gen lv
    else (gen, lv)

/-- Lifecycle facet of struct NativeParams: which native resources the
block currently holds, plus the recorded dimension. -/
structure NP where
  unurgen : Bool
  objMainStream : Bool
  objAuxStream : Bool
  urng : UrngWithParams
  urng_aux : UrngWithParams
  dim : Nat
deriving DecidableEq, Repr

/-- A NativeParams block in the state left by memset 0 at the start of
init: no resource held, dimension 0. -/
def NP.zeroed : NP := ⟨false, false, false, ⟨false, false⟩, ⟨false, false⟩, 0⟩

/-- Observable state of one RandUnuran object: the nativeParams field
(none when the jlong field is 0), the pending exception of the calling
context, and the live native-resource counts. -/
structure LCState where
  np : Option NP
  pending : Option String
  live : Live
deriving DecidableEq, Repr

/-- The release sequence of close (lines 460-469): destroy the
auxiliary generator, the primary generator, the UNURAN generator
(unur_free on null is a no-op inside UNURAN), delete the two global
references when present, and free the NativeParams block. -/
def closeCleanup (np : NP) (lv : Live) : Live :=
  let (_, lv) := urng_jni_destroy np.urng_aux lv
  let (_, lv) := urng_jni_destroy np.urng lv
  let lv := if np.unurgen then { lv with engines := lv.engines - 1 } else lv
  let lv := if np.objAuxStream then { lv with grefs := lv.grefs - 1 } else lv
  let lv := if np.objMainStream then { lv with grefs := lv.grefs - 1 } else lv
  { lv with nps := lv.nps - 1 }

/-- Entry point close (lines 435-479): capture and clear any pending
exception; if nativeParams is null, rethrow it and return; otherwise
run the release sequence, null the nativeParams field, and rethrow the
captured exception. -/
def close (s : LCState) : LCState :=
  let ex := s.pending
  match s.np with
  | none => { s with pending := ex }
  | some np => { np := none, pending := ex, live := closeCleanup np s.live }

/-- The fallible steps of init, each represented by the outcome the
environment gives it: the NativeParams malloc, GetStringUTFChars,
unur_str2gen (with the unur_get_strerror text and the dimension the
engine would report), the two allocations inside each urng_jni_create
call, the malloc of the composed error string, and the acquisition of
the two global stream references.  FindClass lookups of classes that
ship with the library are assumed to succeed. -/
structure InitEnv where
  npMallocOk : Bool
  getStrOk : Bool
  str2genOk : Bool
  unurDiag : String
  engineDim : Nat
  mainMallocOk : Bool
  mainUrngNewOk : Bool
  auxMallocOk : Bool
  auxUrngNewOk : Bool
  errstrMallocOk : Bool
  mainRefOk : Bool
  auxRefOk : Bool
deriving DecidableEq, Repr

/-- The message thrown when the NativeParams malloc fails (line 315). -/
def errNoMem : String := "cannot create UNURAN generator"

/-- The fixed errmsg text composed with the UNURAN diagnostic when
unur_str2gen fails (line 351). -/
def errCreateMsg : String := "cannot create UNURAN generator: "

/-- Entry point init (lines 297-433).  Every failure after the
NativeParams block is installed calls close before the error surfaces;
the engine-creation failure composes errCreateMsg with the UNURAN
diagnostic when the message buffer malloc succeeds and otherwise throws
the fixed errmsg text alone.  The repointing of the default generator
parameter block (lines 330-336) touches only the process-wide default
adapter and is not part of the per-object state modelled here. -/
def init (e : InitEnv) (s : LCState) : LCState :=
  if !e.npMallocOk then { s with pending := some errNoMem }
  else
    let s : LCState :=
      { np := some NP.zeroed, pending := s.pending,
        live := { s.live with nps := s.live.nps + 1 } }
    if !e.getStrOk then close { s with pending := some "OutOfMemoryError" }
    else if !e.str2genOk then
      if e.errstrMallocOk then
        { close s with pending := some (errCreateMsg ++ e.unurDiag) }
      else
        { close s with pending := some errCreateMsg }
    else
      let np : NP := { NP.zeroed with unurgen := true, dim := e.engineDim }
      let s : LCState :=
        { s with np := some np, live := { s.live with engines := s.live.engines + 1 } }
      let (u1, lv1) := urng_jni_create np.urng e.mainMallocOk e.mainUrngNewOk s.live
      let np := { np with urng := u1 }
      let s : LCState := { s with np := some np, live := lv1 }
      if !u1.urng then
        { close s with pending := some "cannot allocate uniform random number generator" }
      else
        let (u2, lv2) := urng_jni_create np.urng_aux e.auxMallocOk e.auxUrngNewOk s.live
        let np := { np with urng_aux := u2 }
        let s : LCState := { s with np := some np, live := lv2 }
        if !u2.urng then
          { close s with
              pending := some "cannot allocate uniform auxiliary random number generator." }
        else if !e.mainRefOk then close s
        else
          let np := { np with objMainStream := true }
          let s : LCState :=
            { s with np := some np, live := { s.live with grefs := s.live.grefs + 1 } }
          if !e.auxRefOk then close s
          else
            let np := { np with objAuxStream := true }
            { s with np := some np, live := { s.live with grefs := s.live.grefs + 1 } }

/-- The state of a freshly constructed RandUnuran object when init is
entered: null nativeParams field, no pending exception, no native
resource allocated. -/
def s0 : LCState := ⟨none, none, Live.zero⟩

/-- Character-sequence containment, used to state that an error message
includes the UNURAN diagnostic text. -/
def seqAt : List Char → List Char → Bool
  | [], _ => true
  | _ :: _, [] => false
  | a :: pa, b :: lb => a == b && seqAt pa lb

/-- pat occurs contiguously inside l. -/
def containsSeq : List Char → List Char → Bool
  | pat, [] => seqAt pat []
  | pat, c :: rest => seqAt pat (c :: rest) || containsSeq pat rest

/-
  Helper lemmas shared by the claim theorems.
-/

lemma getD_map_range (f : Nat → UVal) (n j : Nat) (h : j < n) :
    ((List.range n).map f).getD j 0 = f j := by
  rw [List.getD_eq_getElem?_getD, List.getElem?_map, List.getElem?_range h]
  rfl

lemma cons_map_range (g : Nat → UVal) (m : Nat) :
    g 0 :: (List.range m).map (fun j => g (1 + j)) = (List.range (m + 1)).map g := by
  rw [List.range_succ_eq_map, List.map_cons, List.map_map]
  refine congrArg₂ List.cons rfl (List.map_congr_left fun j hj => ?_)
  simp only [Function.comp_apply]
  congr 1
  omega

lemma pull_of_unif (gp : GenParams) (rs : RandomStream) (h : gp.unif = UnifFn.unif) :
    pull gp rs =
      ⟨rs.seq rs.pos, gp, { rs with pos := rs.pos + 1 }, [JEvent.nextDouble]⟩ := by
  rcases gp with ⟨ro, u, ua, nn, ni, uf⟩
  cases h
  rfl

lemma pull_of_cons (gp : GenParams) (rs : RandomStream) (h : gp.unif = UnifFn.cons) :
    pull gp rs = ⟨gp.u, { gp with unif := UnifFn.unif }, rs, []⟩ := by
  rcases gp with ⟨ro, u, ua, nn, ni, uf⟩
  cases h
  rfl

lemma pull_of_arr_has (gp : GenParams) (rs : RandomStream)
    (h : gp.unif = UnifFn.arr) (hlt : gp.nextIndex < gp.n) :
    pull gp rs =
      ⟨gp.unifArray.getD gp.nextIndex 0,
       { gp with nextIndex := gp.nextIndex + 1 }, rs, []⟩ := by
  rcases gp with ⟨ro, u, ua, nn, ni, uf⟩
  cases h
  simp only [pull, if_neg (Nat.not_le.mpr hlt)]

lemma pull_of_arr_refill (gp : GenParams) (rs : RandomStream)
    (h : gp.unif = UnifFn.arr) (hge : gp.n ≤ gp.nextIndex) :
    pull gp rs =
      ⟨((List.range gp.n).map (fun i => rs.seq (rs.pos + i))).getD 0 0,
       { gp with unifArray := (List.range gp.n).map (fun i => rs.seq (rs.pos + i)),
                 nextIndex := 1 },
       { rs with pos := rs.pos + gp.n }, [JEvent.fillBuffer 0 gp.n]⟩ := by
  rcases gp with ⟨ro, u, ua, nn, ni, uf⟩
  cases h
  simp only [pull, if_pos hge, nextArrayOfDouble]

lemma pulls_of_unif (gp : GenParams) (h : gp.unif = UnifFn.unif) :
    ∀ (k : Nat) (rs : RandomStream),
      pulls gp rs k =
        ⟨(List.range k).map (fun i => rs.seq (rs.pos + i)), gp,
         { rs with pos := rs.pos + k }, List.replicate k JEvent.nextDouble⟩ := by
  intro k
  induction k with
  | zero => intro rs; simp [pulls]
  | succ k ih =>
      rintro ⟨sq, p⟩
      have hfun : ((fun i => sq (p + i)) ∘ Nat.succ) = (fun i => sq (p + 1 + i)) := by
        funext i
        simp only [Function.comp_apply]
        congr 1
        omega
      have hpos : p + 1 + k = p + (k + 1) := by omega
      simp only [pulls, pull_of_unif _ _ h, ih, List.range_succ_eq_map, List.map_cons,
        List.map_map, hfun, hpos, Nat.add_zero, List.replicate_succ, List.singleton_append]

lemma pulls_of_arr :
    ∀ (k : Nat) (gp : GenParams) (rs : RandomStream),
      gp.unif = UnifFn.arr → gp.nextIndex + k ≤ gp.n →
      pulls gp rs k =
        ⟨(List.range k).map (fun j => gp.unifArray.getD (gp.nextIndex + j) 0),
         { gp with nextIndex := gp.nextIndex + k }, rs, []⟩ := by
  intro k
  induction k with
  | zero =>
      intro gp rs h hk
      simp [pulls]
  | succ k ih =>
      rintro ⟨ro, u, ua, nn, ni, uf⟩ rs h hk
      cases h
      have hk2 : ni + (k + 1) ≤ nn := hk
      have hlt : ni < nn := by omega
      have hpull := pull_of_arr_has ⟨ro, u, ua, nn, ni, UnifFn.arr⟩ rs rfl hlt
      have hrest := ih ⟨ro, u, ua, nn, ni + 1, UnifFn.arr⟩ rs rfl
        (by show ni + 1 + k ≤ nn; omega)
      have hfun : ((fun j => ua.getD (ni + j) 0) ∘ Nat.succ) =
          (fun j => ua.getD (ni + 1 + j) 0) := by
        funext j
        have hj : ni + Nat.succ j = ni + 1 + j := by omega
        simp only [Function.comp_apply, hj]
      have hidx : ni + 1 + k = ni + (k + 1) := by omega
      simp only [pulls, hpull, hrest, List.range_succ_eq_map, List.map_cons,
        List.map_map, hfun, hidx, Nat.add_zero, List.nil_append]

lemma pull_preserves_arr (gp : GenParams) (rs : RandomStream)
    (h : gp.unif = UnifFn.arr) : (pull gp rs).gp.unif = UnifFn.arr := by
  rcases gp with ⟨ro, u, ua, nn, ni, uf⟩
  cases h
  simp only [pull]
  split <;> rfl

lemma pullAt_heap_arr (w : World) (a b : Nat) (h : (w.heap a).unif = UnifFn.arr) :
    (((pullAt w b).2).heap a).unif = UnifFn.arr := by
  by_cases hab : b = a
  · subst hab
    simp only [pullAt]
    rw [Function.update_same]
    exact pull_preserves_arr _ _ h
  · simp only [pullAt]
    rw [Function.update_noteq (Ne.symm hab)]
    exact h

lemma enginePulls_heap_arr (np : NPSample) (sched : List Slot) :
    ∀ (w : World) (a : Nat), (w.heap a).unif = UnifFn.arr →
      ((enginePulls np w sched).heap a).unif = UnifFn.arr := by
  induction sched with
  | nil =>
      intro w a h
      exact h
  | cons s rest ih =>
      intro w a h
      exact ih _ _ (pullAt_heap_arr _ _ _ h)

/-- Concrete primary parameter block used by witnesses: call-through on
the main stream. -/
def gpMainC : GenParams := {}

/-- Concrete auxiliary parameter block used by witnesses: call-through
on the auxiliary stream. -/
def gpAuxC : GenParams := { rsObj := StreamId.aux }

/-- Concrete world used by witnesses: primary block at address 0,
auxiliary block at address 1, deterministic streams, empty log. -/
def wC : World :=
  ⟨Function.update (fun _ => gpMainC) 1 gpAuxC,
   ⟨fun i => (i : Int) + 100, 0⟩, ⟨fun i => (i : Int) + 200, 0⟩, []⟩

/-- Concrete NativeParams sampling facet used by witnesses. -/
def npC : NPSample := ⟨0, 1, 1⟩

/-
  Claim theorems.
-/

/-- Claim C1: after setCachedValue v, the first pull returns exactly v
and switches the block to call-through (unif); the k subsequent pulls
of the same operation each invoke nextDouble on the managed stream and
return its outputs rather than the cached value. -/
theorem c1_cached_value_mode (gp : GenParams) (rs : RandomStream) (v : UVal) (k : Nat) :
    (pull (setCachedValue gp v) rs).val = v ∧
    (pull (setCachedValue gp v) rs).gp.unif = UnifFn.unif ∧
    (pulls (setCachedValue gp v) rs (k + 1)).vals =
      v :: (List.range k).map (fun i => rs.seq (rs.pos + i)) ∧
    (pulls (setCachedValue gp v) rs (k + 1)).events =
      List.replicate k JEvent.nextDouble := by
  have h1 : pull (setCachedValue gp v) rs =
      ⟨v, { gp with u := v, unif := UnifFn.unif }, rs, []⟩ := rfl
  have h2 := pulls_of_unif { gp with u := v, unif := UnifFn.unif } rfl k rs
  refine ⟨by rw [h1], by rw [h1], ?_, ?_⟩
  · simp only [pulls, h1, h2]
  · simp only [pulls, h1, h2, List.nil_append]

/-- Claim C2: with the block put in array-stream mode over a buffer of
length n and the cursor at n, the first pull issues exactly one
fillBuffer 0 n request and leaves the cursor at 1 after returning the
first refilled value; the first n pulls return the refilled contents in
order with exactly one fill in total, and the pull after them issues
exactly one further fill before returning the first value of the next
batch. -/
theorem c2_array_stream_mode (gp0 : GenParams) (buf : List UVal) (rs : RandomStream)
    (n : Nat) (hn : 0 < n) (hbuf : buf.length = n) :
    (pull (setArrayMode gp0 buf n) rs).events = [JEvent.fillBuffer 0 n] ∧
    (pull (setArrayMode gp0 buf n) rs).gp.nextIndex = 1 ∧
    (pull (setArrayMode gp0 buf n) rs).val = rs.seq rs.pos ∧
    (pulls (setArrayMode gp0 buf n) rs n).vals =
      (List.range n).map (fun i => rs.seq (rs.pos + i)) ∧
    (pulls (setArrayMode gp0 buf n) rs n).events = [JEvent.fillBuffer 0 n] ∧
    (pull (pulls (setArrayMode gp0 buf n) rs n).gp
        (pulls (setArrayMode gp0 buf n) rs n).rs).events = [JEvent.fillBuffer 0 n] ∧
    (pull (pulls (setArrayMode gp0 buf n) rs n).gp
        (pulls (setArrayMode gp0 buf n) rs n).rs).val = rs.seq (rs.pos + n) := by
  obtain ⟨m, rfl⟩ := Nat.exists_eq_succ_of_ne_zero (Nat.pos_iff_ne_zero.mp hn)
  have h1 : pull (setArrayMode gp0 buf (m + 1)) rs =
      ⟨((List.range (m + 1)).map (fun i => rs.seq (rs.pos + i))).getD 0 0,
       { gp0 with unifArray := (List.range (m + 1)).map (fun i => rs.seq (rs.pos + i)),
                  n := m + 1, nextIndex := 1, unif := UnifFn.arr },
       { rs with pos := rs.pos + (m + 1) }, [JEvent.fillBuffer 0 (m + 1)]⟩ :=
    pull_of_arr_refill _ rs rfl (Nat.le_refl _)
  have h2 : pulls
      { gp0 with unifArray := (List.range (m + 1)).map (fun i => rs.seq (rs.pos + i)),
                 n := m + 1, nextIndex := 1, unif := UnifFn.arr }
      { rs with pos := rs.pos + (m + 1) } m =
      ⟨(List.range m).map (fun j =>
          ((List.range (m + 1)).map (fun i => rs.seq (rs.pos + i))).getD (1 + j) 0),
       { gp0 with unifArray := (List.range (m + 1)).map (fun i => rs.seq (rs.pos + i)),
                  n := m + 1, nextIndex := 1 + m, unif := UnifFn.arr },
       { rs with pos := rs.pos + (m + 1) }, []⟩ :=
    pulls_of_arr m _ _ rfl (by show 1 + m ≤ m + 1; omega)
  have h3 : pull
      { gp0 with unifArray := (List.range (m + 1)).map (fun i => rs.seq (rs.pos + i)),
                 n := m + 1, nextIndex := 1 + m, unif := UnifFn.arr }
      { rs with pos := rs.pos + (m + 1) } =
      ⟨((List.range (m + 1)).map (fun i => rs.seq (rs.pos + (m + 1) + i))).getD 0 0,
       { gp0 with unifArray := (List.range (m + 1)).map (fun i => rs.seq (rs.pos + (m + 1) + i)),
                  n := m + 1, nextIndex := 1, unif := UnifFn.arr },
       { rs with pos := rs.pos + (m + 1) + (m + 1) }, [JEvent.fillBuffer 0 (m + 1)]⟩ :=
    pull_of_arr_refill _ _ rfl (by show m + 1 ≤ 1 + m; omega)
  refine ⟨by rw [h1], by rw [h1], ?_, ?_, ?_, ?_, ?_⟩
  · rw [h1]
    show ((List.range (m + 1)).map (fun i => rs.seq (rs.pos + i))).getD 0 0 = rs.seq rs.pos
    rw [getD_map_range _ _ _ (by omega), Nat.add_zero]
  · simp only [pulls, h1, h2]
    have hc := cons_map_range (fun i => rs.seq (rs.pos + i)) m
    simp only [Nat.add_zero] at hc
    have htail : (List.range m).map (fun j =>
        ((List.range (m + 1)).map (fun i => rs.seq (rs.pos + i))).getD (1 + j) 0) =
        (List.range m).map (fun j => rs.seq (rs.pos + (1 + j))) :=
      List.map_congr_left (fun j hj => by
        simp only [List.mem_range] at hj
        exact getD_map_range _ _ _ (by omega))
    rw [getD_map_range _ _ _ (show 0 < m + 1 by omega), Nat.add_zero, htail]
    exact hc
  · simp only [pulls, h1, h2, List.append_nil]
  · simp only [pulls, h1, h2]
    rw [h3]
  · simp only [pulls, h1, h2]
    rw [h3]
    show ((List.range (m + 1)).map (fun i => rs.seq (rs.pos + (m + 1) + i))).getD 0 0 =
      rs.seq (rs.pos + (m + 1))
    rw [getD_map_range _ _ _ (by omega), Nat.add_zero]

/-- Witness for claim C2 at gp0 = default, buf = [3, 4], n = 2, and the
stream 10, 11, 12, ... -/
theorem c2_array_stream_mode_witness :
    (0 : Nat) < 2 ∧ ([(3 : UVal), 4]).length = 2 ∧
    ((pull (setArrayMode gpMainC [3, 4] 2) ⟨fun i => (i : Int) + 10, 0⟩).events
        = [JEvent.fillBuffer 0 2] ∧
      (pull (setArrayMode gpMainC [3, 4] 2) ⟨fun i => (i : Int) + 10, 0⟩).gp.nextIndex = 1 ∧
      (pull (setArrayMode gpMainC [3, 4] 2) ⟨fun i => (i : Int) + 10, 0⟩).val = 10 ∧
      (pulls (setArrayMode gpMainC [3, 4] 2) ⟨fun i => (i : Int) + 10, 0⟩ 2).vals = [10, 11] ∧
      (pulls (setArrayMode gpMainC [3, 4] 2) ⟨fun i => (i : Int) + 10, 0⟩ 2).events
        = [JEvent.fillBuffer 0 2] ∧
      (pull (pulls (setArrayMode gpMainC [3, 4] 2) ⟨fun i => (i : Int) + 10, 0⟩ 2).gp
          (pulls (setArrayMode gpMainC [3, 4] 2) ⟨fun i => (i : Int) + 10, 0⟩ 2).rs).events
        = [JEvent.fillBuffer 0 2] ∧
      (pull (pulls (setArrayMode gpMainC [3, 4] 2) ⟨fun i => (i : Int) + 10, 0⟩ 2).gp
          (pulls (setArrayMode gpMainC [3, 4] 2) ⟨fun i => (i : Int) + 10, 0⟩ 2).rs).val = 12) :=
  ⟨by decide, by decide,
   (c2_array_stream_mode gpMainC [3, 4] ⟨fun i => (i : Int) + 10, 0⟩ 2
     (by decide) (by decide))⟩

/-- Claim C3, evaluated at a failing input: on a discrete batch call
that supplies a distinct auxiliary buffer [21, 22], the auxiliary block
(address 1) is left in call-through mode, because the source writes
np->urng.params->unif = arr (the primary block, a second time) instead
of np->urng_aux.params->unif = arr; consequently the one auxiliary pull
performed by the engine during the loop invokes nextDouble on the
managed auxiliary stream (advancing it to position 1) instead of
reading the supplied auxiliary buffer. -/
theorem c3_aux_array_mode_bug :
    ((getRandDiscArray npC wC [11, 12] (some [21, 22]) 2 [Slot.auxiliary]).2.heap 1).unif
        = UnifFn.unif ∧
    (getRandDiscArray npC wC [11, 12] (some [21, 22]) 2 [Slot.auxiliary]).2.log
        = [(StreamId.aux, JEvent.nextDouble)] ∧
    (getRandDiscArray npC wC [11, 12] (some [21, 22]) 2 [Slot.auxiliary]).2.auxStream.pos
        = 1 := by
  refine ⟨?_, ?_, ?_⟩ <;> rfl

/-- Counterexample to claim C7: after a completed batch sampling
operation on a concrete handle, the primary adapter is still in
array-stream mode, not call-through. -/
theorem c7_counterexample :
    ((getRandDiscArray npC wC [5] none 1 [Slot.primary]).2.heap 0).unif ≠ UnifFn.unif := by
  decide

/-- Claim C7 as amended: the batch entry points leave the primary block
in array-stream mode after the operation completes (there is no
defensive reset to call-through); a stale mode never leaks into a later
single-value operation because each single-value entry point installs
at call start the modes it uses, namely cached-value on the primary
block and call-through on the auxiliary block, whatever the previous
modes were. -/
theorem c7_modes_after_operations (np : NPSample) (w : World) (ju : List UVal)
    (juaux : Option (List UVal)) (n : Nat) (sched : List Slot) (u : UVal)
    (hne : np.urngAuxParams ≠ np.urngParams) :
    (((getRandDiscArray np w ju juaux n sched).2).heap np.urngParams).unif = UnifFn.arr ∧
    (((getRandContArray np w ju juaux n sched).2).heap np.urngParams).unif = UnifFn.arr ∧
    ((getRandDisc np u w []).heap np.urngParams).unif = UnifFn.cons ∧
    ((getRandDisc np u w []).heap np.urngAuxParams).unif = UnifFn.unif := by
  have harr : ∀ (np2 : NPSample) (w2 : World) (sched2 : List Slot),
      (w2.heap np.urngParams).unif = UnifFn.arr →
      ((enginePulls np2 w2 sched2).heap np.urngParams).unif = UnifFn.arr :=
    fun np2 w2 sched2 h => enginePulls_heap_arr np2 sched2 w2 np.urngParams h
  refine ⟨?_, ?_, ?_, ?_⟩
  · cases juaux with
    | none =>
        refine harr _ _ _ ?_
        simp [updateHeap, setArrayMode]
    | some buf =>
        refine harr _ _ _ ?_
        simp [updateHeap, Function.update_same]
  · cases juaux with
    | none =>
        refine harr _ _ _ ?_
        simp [updateHeap, setArrayMode]
    | some buf =>
        refine harr _ _ _ ?_
        simp [updateHeap, Function.update_same]
  · show ((updateHeap (updateHeap w np.urngParams (fun gp => setCachedValue gp u))
      np.urngAuxParams (fun gp => { gp with unif := UnifFn.unif })).heap np.urngParams).unif
      = UnifFn.cons
    simp only [updateHeap]
    rw [Function.update_noteq (Ne.symm hne), Function.update_same]
    rfl
  · show ((updateHeap (updateHeap w np.urngParams (fun gp => setCachedValue gp u))
      np.urngAuxParams (fun gp => { gp with unif := UnifFn.unif })).heap np.urngAuxParams).unif
      = UnifFn.unif
    simp only [updateHeap]
    rw [Function.update_same]

/-- Witness for claim C7 as amended, at the concrete handle with the
primary block at address 0 and the auxiliary block at address 1. -/
theorem c7_modes_after_operations_witness :
    (((getRandDiscArray npC wC [5] none 1 [Slot.primary]).2).heap npC.urngParams).unif
        = UnifFn.arr ∧
    (((getRandContArray npC wC [5] none 1 [Slot.primary]).2).heap npC.urngParams).unif
        = UnifFn.arr ∧
    ((getRandDisc npC 7 wC []).heap npC.urngParams).unif = UnifFn.cons ∧
    ((getRandDisc npC 7 wC []).heap npC.urngAuxParams).unif = UnifFn.unif :=
  c7_modes_after_operations npC wC [5] none 1 [Slot.primary] 7 (by decide)

/-- Claim C8: a batch call returns the NativeParams pointers exactly as
they were (in particular the auxiliary params pointer is restored from
the value captured before the alias, so the steady-state adapters are
not left merged); the discrete and continuous batch paths are
identical; and when no distinct auxiliary buffer is supplied the whole
loop runs with the auxiliary slot aliased to the primary block. -/
theorem c8_aux_alias_restored (np : NPSample) (w : World) (ju : List UVal)
    (juaux : Option (List UVal)) (n : Nat) (sched : List Slot) :
    (getRandDiscArray np w ju juaux n sched).1 = np ∧
    getRandContArray np w ju juaux n sched = getRandDiscArray np w ju juaux n sched ∧
    (juaux = none →
      (getRandDiscArray np w ju juaux n sched).2 =
        enginePulls { np with urngAuxParams := np.urngParams }
          (updateHeap w np.urngParams (fun gp => setArrayMode gp ju n)) sched) := by
  refine ⟨?_, ?_, ?_⟩
  · cases juaux <;> rfl
  · cases juaux <;> rfl
  · rintro rfl
    rfl

/-- Witness for claim C8 at a concrete aliased batch call. -/
theorem c8_aux_alias_restored_witness :
    (getRandDiscArray npC wC [5] none 1 [Slot.primary]).2 =
      enginePulls { npC with urngAuxParams := npC.urngParams }
        (updateHeap wC npC.urngParams (fun gp => setArrayMode gp [5] 1)) [Slot.primary] :=
  (c8_aux_alias_restored npC wC [5] none 1 [Slot.primary]).2.2 rfl

/-- Claim C9: a vector sampling call whose output buffer is shorter
than the dimension fails with the array-too-short error after only the
mode setup: the result carries the unmodified output buffer, records
that the native sampling call was not made, and does not depend on the
engine at all. -/
theorem c9_vector_length_check (np : NPSample) (u : UVal) (w : World) (jvec : List UVal)
    (sampleVec : World → List UVal → World × List UVal)
    (h : jvec.length < np.dim) :
    getRandVec np u w jvec sampleVec =
      (updateHeap (updateHeap w np.urngParams (fun gp => setCachedValue gp u))
         np.urngAuxParams (fun gp => { gp with unif := UnifFn.unif }),
       some "array too short", false, jvec) := by
  simp only [getRandVec, if_pos h]

/-- Witness for claim C9: an empty output buffer against dimension 1. -/
theorem c9_vector_length_check_witness :
    getRandVec npC 7 wC [] (fun w v => (w, v)) =
      (updateHeap (updateHeap wC npC.urngParams (fun gp => setCachedValue gp 7))
         npC.urngAuxParams (fun gp => { gp with unif := UnifFn.unif }),
       some "array too short", false, []) :=
  c9_vector_length_check npC 7 wC [] (fun w v => (w, v)) (by decide)

lemma init_np_none_teardown (e : InitEnv) :
    (init e s0).np = none → (init e s0).live = Live.zero := by
  intro hnone
  cases h1 : e.npMallocOk
  · simp [init, s0, h1, Live.zero]
  cases h2 : e.getStrOk
  · simp [init, close, closeCleanup, urng_jni_destroy, s0, Live.zero, NP.zeroed, h1, h2]
  cases h3 : e.str2genOk
  · cases h8 : e.errstrMallocOk <;>
      simp [init, close, closeCleanup, urng_jni_destroy, s0, Live.zero, NP.zeroed,
        h1, h2, h3, h8]
  cases h4 : e.mainMallocOk
  · simp [init, close, closeCleanup, urng_jni_create, urng_jni_destroy, s0, Live.zero,
      NP.zeroed, h1, h2, h3, h4]
  cases h5 : e.mainUrngNewOk
  · simp [init, close, closeCleanup, urng_jni_create, urng_jni_destroy, s0, Live.zero,
      NP.zeroed, h1, h2, h3, h4, h5]
  cases h6 : e.auxMallocOk
  · simp [init, close, closeCleanup, urng_jni_create, urng_jni_destroy, s0, Live.zero,
      NP.zeroed, h1, h2, h3, h4, h5, h6]
  cases h7 : e.auxUrngNewOk
  · simp [init, close, closeCleanup, urng_jni_create, urng_jni_destroy, s0, Live.zero,
      NP.zeroed, h1, h2, h3, h4, h5, h6, h7]
  cases h9 : e.mainRefOk
  · simp [init, close, closeCleanup, urng_jni_create, urng_jni_destroy, s0, Live.zero,
      NP.zeroed, h1, h2, h3, h4, h5, h6, h7, h9]
  cases h10 : e.auxRefOk
  · simp [init, close, closeCleanup, urng_jni_create, urng_jni_destroy, s0, Live.zero,
      NP.zeroed, h1, h2, h3, h4, h5, h6, h7, h9, h10]
  simp [init, urng_jni_create, s0, h1, h2, h3, h4, h5, h6, h7, h9, h10] at hnone

/-- Claim C4: close is idempotent: a second close performed right after
a first one produces the same observable state; after any completed
close the nativeParams field is null; and on a handle whose
nativeParams field is already null, close is a no-op that changes no
state. -/
theorem c4_close_idempotent (s : LCState) :
    close (close s) = close s ∧
    (close s).np = none ∧
    (s.np = none → close s = s) := by
  rcases s with ⟨np?, p, lv⟩
  cases np? with
  | none => exact ⟨rfl, rfl, fun _ => rfl⟩
  | some np => exact ⟨rfl, rfl, fun h => Option.noConfusion h⟩

/-- Witness for claim C4 on a concrete already-closed handle with a
pending exception. -/
theorem c4_close_idempotent_witness :
    close (close ⟨none, some "E", Live.zero⟩) = close ⟨none, some "E", Live.zero⟩ ∧
    (close (⟨none, some "E", Live.zero⟩ : LCState)).np = none ∧
    close ⟨none, some "E", Live.zero⟩ = (⟨none, some "E", Live.zero⟩ : LCState) :=
  ⟨(c4_close_idempotent ⟨none, some "E", Live.zero⟩).1,
   (c4_close_idempotent ⟨none, some "E", Live.zero⟩).2.1,
   (c4_close_idempotent ⟨none, some "E", Live.zero⟩).2.2 rfl⟩

/-- Claim C5: close leaves the pending exception of the calling context
exactly as it found it (re-raising it after cleanup), and the cleanup
it performs is exactly the cleanup it would perform with no exception
pending, in the no-op case and in the full-cleanup case alike; when no
exception was pending, none is pending afterwards. -/
theorem c5_close_preserves_pending (s : LCState) :
    (close s).pending = s.pending ∧
    close s = { close { s with pending := none } with pending := s.pending } := by
  rcases s with ⟨np?, p, lv⟩
  cases np? <;> exact ⟨rfl, rfl⟩

/-- Counterexample to claim C6: when unur_str2gen fails and the malloc
of the composed error string also fails, init still tears everything
down but throws only the fixed errmsg text, which does not contain the
UNURAN diagnostic (here "boom"). -/
theorem c6_counterexample :
    (init ⟨true, true, false, "boom", 0, true, true, true, true, false, true, true⟩ s0).np
        = none ∧
    (init ⟨true, true, false, "boom", 0, true, true, true, true, false, true, true⟩ s0).pending
        = some errCreateMsg ∧
    containsSeq "boom".toList errCreateMsg.toList = false := by
  refine ⟨rfl, rfl, by decide⟩

/-- Claim C6 as amended: whenever engine creation from the spec string
fails (the run reached unur_str2gen and it failed), init tears down all
state allocated so far — the nativeParams field is null, no native
resource stays allocated, and a subsequent close is a no-op — and
throws an engine-creation error; the message carries the UNURAN
diagnostic text when the buffer for the composed message can be
allocated, and otherwise only the fixed errmsg text.  More generally,
whenever init ends with a null nativeParams field, every native
resource allocated during the attempt has been released. -/
theorem c6_engine_creation_failure (e : InitEnv)
    (hnp : e.npMallocOk = true) (hgs : e.getStrOk = true) (hfail : e.str2genOk = false) :
    (init e s0).np = none ∧
    (init e s0).live = Live.zero ∧
    close (init e s0) = init e s0 ∧
    (init e s0).pending =
      some (if e.errstrMallocOk then errCreateMsg ++ e.unurDiag else errCreateMsg) ∧
    ∀ e2 : InitEnv, (init e2 s0).np = none → (init e2 s0).live = Live.zero := by
  refine ⟨?_, ?_, ?_, ?_, init_np_none_teardown⟩ <;>
    cases h8 : e.errstrMallocOk <;>
    simp [init, close, closeCleanup, urng_jni_destroy, s0, Live.zero, NP.zeroed,
      hnp, hgs, hfail, h8]

/-- Witness for claim C6 as amended, at an environment whose engine
creation fails with diagnostic "spec invalid" and at the environment of
the counterexample for the general teardown conjunct. -/
theorem c6_engine_creation_failure_witness :
    (init ⟨true, true, false, "spec invalid", 1, true, true, true, true, true, true, true⟩
        s0).np = none ∧
    (init ⟨true, true, false, "spec invalid", 1, true, true, true, true, true, true, true⟩
        s0).live = Live.zero ∧
    close (init ⟨true, true, false, "spec invalid", 1, true, true, true, true, true, true,
        true⟩ s0) =
      init ⟨true, true, false, "spec invalid", 1, true, true, true, true, true, true, true⟩
        s0 ∧
    (init ⟨true, true, false, "spec invalid", 1, true, true, true, true, true, true, true⟩
        s0).pending = some (errCreateMsg ++ "spec invalid") ∧
    (init ⟨false, true, true, "", 0, true, true, true, true, true, true, true⟩ s0).live
        = Live.zero :=
  ⟨(c6_engine_creation_failure _ rfl rfl rfl).1,
   (c6_engine_creation_failure _ rfl rfl rfl).2.1,
   (c6_engine_creation_failure _ rfl rfl rfl).2.2.1,
   (c6_engine_creation_failure
     ⟨true, true, false, "spec invalid", 1, true, true, true, true, true, true, true⟩
     rfl rfl rfl).2.2.2.1,
   (c6_engine_creation_failure
     ⟨true, true, false, "spec invalid", 1, true, true, true, true, true, true, true⟩
     rfl rfl rfl).2.2.2.2
     ⟨false, true, true, "", 0, true, true, true, true, true, true, true⟩ rfl⟩

/-- Claim C10: urng_jni_create is all-or-nothing — afterwards either
both the UNUR_URNG and the params block are allocated or both fields
are null (any part-allocated piece having been freed); and
urng_jni_destroy always leaves both fields null and is safe on an
already-destroyed structure and on a null pointer. -/
theorem c10_adapter_all_or_nothing (gen : UrngWithParams)
    (mallocOk urngNewOk : Bool) (lv : Live) :
    (((urng_jni_create gen mallocOk urngNewOk lv).1.urng = true ∧
      (urng_jni_create gen mallocOk urngNewOk lv).1.params = true) ∨
     ((urng_jni_create gen mallocOk urngNewOk lv).1.urng = false ∧
      (urng_jni_create gen mallocOk urngNewOk lv).1.params = false)) ∧
    (urng_jni_destroy gen lv).1 = ⟨false, false⟩ ∧
    urng_jni_destroy_p (some ⟨false, false⟩, lv) = (some ⟨false, false⟩, lv) ∧
    urng_jni_destroy_p (none, lv) = (none, lv) := by
  rcases gen with ⟨ug, pr⟩
  cases ug <;> cases pr <;> cases mallocOk <;> cases urngNewOk <;>
    simp [urng_jni_create, urng_jni_destroy, urng_jni_destroy_p]

end RandUnuran
